import Mathlib

/-!
Verification development for `generate_prompts.py`, a sequential batch driver
that reads (identifier, text) lines from a delimited file, requests synthesized
audio over HTTP for each entry, transcodes the result with an external media
tool, and cleans up the intermediate artifact.

Strings are modelled as `List Char`; the per-entry side effects are modelled as
an explicit event trace, and the filesystem as the list of paths present.
-/

/-- The whitespace characters removed by Python `str.strip()` (ASCII subset). -/
def pyWhitespace (c : Char) : Bool :=
  c = ' ' || c = '\t' || c = '\n' || c = '\r' || c = '\x0b' || c = '\x0c'

/-- The character class removed by `str.strip(chr(34))`. -/
def isQuoteChar (c : Char) : Bool :=
  c = '\"'

/-- Python `str.strip(chars)`: remove every leading and every trailing character
satisfying `p` (first from the right end via `reverse`, then from the left). -/
def pyStrip (p : Char → Bool) (s : List Char) : List Char :=
  List.dropWhile p ((List.dropWhile p s.reverse).reverse)

/-- Line 83 of the source: `line.strip().strip(chr(34))`. -/
def cleanLine (raw : List Char) : List Char :=
  pyStrip isQuoteChar (pyStrip pyWhitespace raw)

/-- Python `line.split(sep, 1)` for a one-character separator, restricted to the
case the source guards with `if sep in line`: `none` when no comma occurs,
otherwise the parts before and after the first comma. -/
def splitAtComma : List Char → Option (List Char × List Char)
  | [] => none
  | c :: cs =>
    if c = ',' then some ([], cs)
    else
      match splitAtComma cs with
      | none => none
      | some p => some (c :: p.1, p.2)

/-- One parsed input record: output filename stem and the prompt text. -/
structure PromptEntry where
  identifier : List Char
  text : List Char
deriving DecidableEq, Repr

/-- The body of the main loop, lines 83-91 of the source: clean the line, skip
it unless it contains a comma, split at the first comma, trim both parts. -/
def parseLine (raw : List Char) : Option PromptEntry :=
  match splitAtComma (cleanLine raw) with
  | none => none
  | some p => some ⟨pyStrip pyWhitespace p.1, pyStrip pyWhitespace p.2⟩

/-- The entries produced by iterating the main loop over the input lines. -/
def readEntries (lines : List (List Char)) : List PromptEntry :=
  lines.filterMap parseLine

/-- Configuration constant `API_KEY` from the source. -/
def API_KEY : List Char :=
  "APICODEHERE".toList

/-- Configuration constant `VOICE_MODEL` from the source. -/
def VOICE_MODEL : List Char :=
  "aura-2-thalia-en".toList

/-- Configuration constant `OUTPUT_DIR` from the source. -/
def OUTPUT_DIR : List Char :=
  "output_wav".toList

/-- POSIX `os.path.join` for two components: an absolute second component
discards the first; otherwise the components are joined with a separator
unless the first already ends in one. -/
def osPathJoin (a b : List Char) : List Char :=
  if b.head? = some '/' then b
  else if a = [] then b
  else if a.getLast? = some '/' then a ++ b
  else a ++ '/' :: b

/-- Line 59: `os.path.join(OUTPUT_DIR, filename + "_temp.wav")`. -/
def tempPath (filename : List Char) : List Char :=
  osPathJoin OUTPUT_DIR (filename ++ "_temp.wav".toList)

/-- Line 60: `os.path.join(OUTPUT_DIR, filename + ".wav")`. -/
def finalPath (filename : List Char) : List Char :=
  osPathJoin OUTPUT_DIR (filename ++ ".wav".toList)

/-- A child-process invocation: argument vector, whether the standard output
and error streams are redirected to the null device, and whether the caller
checks the exit status. -/
structure ProcessInvocation where
  args : List (List Char)
  stdoutSuppressed : Bool
  stderrSuppressed : Bool
  checkExit : Bool
deriving DecidableEq, Repr

/-- Lines 22-34 of the source: the `ffmpeg` invocation built by
`convert_to_ulaw`, run with both streams sent to `DEVNULL` and no `check`. -/
def convert_to_ulaw (input_path output_path : List Char) : ProcessInvocation :=
  { args :=
      [ "ffmpeg".toList, "-y".toList,
        "-i".toList, input_path,
        "-ar".toList, "8000".toList,
        "-ac".toList, "1".toList,
        "-f".toList, "wav".toList,
        "-acodec".toList, "pcm_mulaw".toList,
        output_path ],
    stdoutSuppressed := true,
    stderrSuppressed := true,
    checkExit := false }

/-- An outbound HTTP request as the source builds it. -/
structure HttpRequest where
  url : List Char
  headers : List (List Char × List Char)
  jsonBody : List (List Char × List Char)
deriving DecidableEq, Repr

/-- An HTTP response: status code, raw byte content, and body text. -/
structure HttpResponse where
  status : Nat
  content : List Nat
  text : List Char
deriving DecidableEq, Repr

/-- Line 40: the Speak API URL with the model and fixed encoding parameters. -/
def synthesisUrl : List Char :=
  "https://api.deepgram.com/v1/speak?model=".toList ++ VOICE_MODEL ++
    "&encoding=linear16&sample_rate=16000".toList

/-- Lines 40-54: the request `synthesize_prompt` posts for a given text. -/
def synthesisRequest (prompt_text : List Char) : HttpRequest :=
  { url := synthesisUrl,
    headers :=
      [ ("Authorization".toList, "Token ".toList ++ API_KEY),
        ("Content-Type".toList, "application/json".toList) ],
    jsonBody := [("text".toList, prompt_text)] }

/-- Line 73: the success notice printed for an entry. -/
def successMsg (final_path : List Char) : List Char :=
  "[🎧] Saved Studio-ready: ".toList ++ final_path

/-- Line 76: the error notice printed for a failed entry. -/
def errorMsg (filename : List Char) (status : Nat) (body : List Char) : List Char :=
  "[!] Error for ".toList ++ filename ++ ": ".toList ++ Nat.toDigits 10 status ++
    " - ".toList ++ body

/-- The observable side effects of one pass through `synthesize_prompt`. -/
inductive Event where
  | httpPost (req : HttpRequest)
  | writeFile (path : List Char) (content : List Nat)
  | runProcess (inv : ProcessInvocation)
  | removeFile (path : List Char)
  | printLine (line : List Char)
deriving DecidableEq, Repr

/-- Lines 38-76 of the source: the ordered event trace of `synthesize_prompt`
for a given response. On status 200 it writes the payload to the temp path,
runs the transcoder, removes the temp file, and prints the success notice;
otherwise it only prints the error notice. -/
def synthesize_prompt (resp : HttpResponse) (prompt_text filename : List Char) : List Event :=
  Event.httpPost (synthesisRequest prompt_text) ::
    (if resp.status = 200 then
      [ Event.writeFile (tempPath filename) resp.content,
        Event.runProcess (convert_to_ulaw (tempPath filename) (finalPath filename)),
        Event.removeFile (tempPath filename),
        Event.printLine (successMsg (finalPath filename)) ]
    else
      [ Event.printLine (errorMsg filename resp.status resp.text) ])

/-- Events of the main loop over a list of already-parsed entries, each entry
paired with the response the API returns for it. -/
def eventsOfEntries (respond : PromptEntry → HttpResponse) : List PromptEntry → List Event
  | [] => []
  | e :: es => synthesize_prompt (respond e) e.text e.identifier ++ eventsOfEntries respond es

/-- Lines 80-91: the full event trace of the main loop over the input lines. -/
def mainEvents (respond : PromptEntry → HttpResponse) (lines : List (List Char)) : List Event :=
  eventsOfEntries respond (readEntries lines)

/-- Possible behaviours of the external transcoder, which the source never
checks: it may write the destination file and succeed, exit with an error
without writing the destination, or raise in `subprocess.run` itself (for
example when the executable is missing), which aborts the entry before the
temp-file removal. -/
inductive TranscodeBehavior where
  | success
  | failSilent
  | crash
deriving DecidableEq, Repr

/-- Remove a path from the filesystem (modelled as the list of present paths). -/
def removePath (p : List Char) (fs : List (List Char)) : List (List Char) :=
  fs.filter (fun q => q != p)

/-- The filesystem after one pass of `synthesize_prompt`, parameterised by the
transcoder's behaviour: on status 200 the temp file is written, the transcoder
may write the final file, and the temp file is removed unless the transcoder
call raised; on any other status nothing is touched. -/
def runSynthesize (tb : TranscodeBehavior) (resp : HttpResponse) (filename : List Char)
    (fs : List (List Char)) : List (List Char) :=
  if resp.status = 200 then
    match tb with
    | TranscodeBehavior.success =>
        removePath (tempPath filename) (finalPath filename :: tempPath filename :: fs)
    | TranscodeBehavior.failSilent =>
        removePath (tempPath filename) (tempPath filename :: fs)
    | TranscodeBehavior.crash => tempPath filename :: fs
  else fs

/-- `n` layers of enclosing quote characters around a line. -/
def wrapQuotes : Nat → List Char → List Char
  | 0, s => s
  | n + 1, s => '\"' :: (wrapQuotes n s ++ ['\"'])

/-- A path lies under the configured output directory. -/
def underOutputDir (p : List Char) : Prop :=
  ∃ rest, p = OUTPUT_DIR ++ '/' :: rest

/-- `sub` occurs contiguously inside `l`. -/
def containsSeq (sub l : List Char) : Prop :=
  ∃ pre suf, l = pre ++ (sub ++ suf)

theorem dropWhile_head?_false (p : Char → Bool) :
    ∀ (s : List Char) (c : Char), (List.dropWhile p s).head? = some c → p c = false := by
  intro s
  induction s with
  | nil => intro c h; simp [List.dropWhile] at h
  | cons a t ih =>
    intro c h
    by_cases ha : p a
    · rw [List.dropWhile_cons_of_pos ha] at h
      exact ih c h
    · rw [List.dropWhile_cons_of_neg ha] at h
      simp at h
      rw [← h]
      exact eq_false_of_ne_true ha

theorem getLast?_cons_of_ne (a : Char) (t : List Char) (ht : t ≠ []) :
    (a :: t).getLast? = t.getLast? := by
  cases t with
  | nil => exact absurd rfl ht
  | cons b u => simp [List.getLast?_cons_cons]

theorem getLast?_dropWhile (p : Char → Bool) :
    ∀ (s : List Char), List.dropWhile p s ≠ [] →
      (List.dropWhile p s).getLast? = s.getLast? := by
  intro s
  induction s with
  | nil => intro h; simp [List.dropWhile] at h
  | cons a t ih =>
    intro h
    by_cases ha : p a
    · rw [List.dropWhile_cons_of_pos ha] at h ⊢
      have ht : t ≠ [] := by
        intro he; rw [he] at h; simp [List.dropWhile] at h
      rw [ih h, getLast?_cons_of_ne a t ht]
    · rw [List.dropWhile_cons_of_neg ha]

theorem dropWhile_eq_self_of_head (p : Char → Bool) (s : List Char)
    (h : ∀ c, s.head? = some c → p c = false) : List.dropWhile p s = s := by
  cases s with
  | nil => rfl
  | cons a t =>
    have := h a rfl
    simp [List.dropWhile, this]

theorem pyStrip_head?_false (p : Char → Bool) (s : List Char) (c : Char)
    (h : (pyStrip p s).head? = some c) : p c = false :=
  dropWhile_head?_false p _ c h

theorem pyStrip_getLast?_false (p : Char → Bool) (s : List Char) (c : Char)
    (h : (pyStrip p s).getLast? = some c) : p c = false := by
  unfold pyStrip at h
  by_cases hn : List.dropWhile p ((List.dropWhile p s.reverse).reverse) = []
  · rw [hn] at h; simp at h
  · rw [getLast?_dropWhile p _ hn, List.getLast?_reverse] at h
    exact dropWhile_head?_false p _ c h

theorem pyStrip_eq_self (p : Char → Bool) (s : List Char)
    (h1 : ∀ c, s.head? = some c → p c = false)
    (h2 : ∀ c, s.getLast? = some c → p c = false) : pyStrip p s = s := by
  unfold pyStrip
  have hr : List.dropWhile p s.reverse = s.reverse := by
    apply dropWhile_eq_self_of_head
    intro c hc
    rw [List.head?_reverse] at hc
    exact h2 c hc
  rw [hr, List.reverse_reverse]
  exact dropWhile_eq_self_of_head p s h1

theorem pyStrip_idem (p : Char → Bool) (s : List Char) :
    pyStrip p (pyStrip p s) = pyStrip p s := by
  apply pyStrip_eq_self
  · exact fun c hc => pyStrip_head?_false p s c hc
  · exact fun c hc => pyStrip_getLast?_false p s c hc

theorem splitAtComma_eq_none (s : List Char) (h : ',' ∉ s) : splitAtComma s = none := by
  induction s with
  | nil => rfl
  | cons a t ih =>
    have ha : ¬ a = ',' := fun he => h (he ▸ List.mem_cons_self a t)
    have ht : ',' ∉ t := fun hm => h (List.mem_cons_of_mem a hm)
    simp only [splitAtComma, if_neg ha, ih ht]

theorem splitAtComma_append (a b : List Char) (h : ',' ∉ a) :
    splitAtComma (a ++ ',' :: b) = some (a, b) := by
  induction a with
  | nil => simp [splitAtComma]
  | cons x t ih =>
    have hx : ¬ x = ',' := fun he => h (he ▸ List.mem_cons_self x t)
    have ht : ',' ∉ t := fun hm => h (List.mem_cons_of_mem x hm)
    simp only [List.cons_append, splitAtComma, if_neg hx, List.append_eq, ih ht]

theorem pyStrip_wrap_char (p : Char → Bool) (c : Char) (hc : p c = true) (s : List Char) :
    pyStrip p (c :: (s ++ [c])) = pyStrip p s := by
  unfold pyStrip
  have hrev : (c :: (s ++ [c])).reverse = c :: (s.reverse ++ [c]) := by
    simp
  rw [hrev, List.dropWhile_cons_of_pos hc, List.dropWhile_append]
  by_cases hz : (List.dropWhile p s.reverse).isEmpty
  · rw [if_pos hz]
    have hz2 : List.dropWhile p s.reverse = [] := List.isEmpty_iff.mp hz
    rw [hz2]
    simp [List.dropWhile, hc]
  · rw [if_neg hz]
    rw [List.reverse_append]
    simp only [List.reverse_cons, List.reverse_nil, List.nil_append, List.singleton_append]
    rw [List.dropWhile_cons_of_pos hc]

theorem pyStrip_wrapQuotes (n : Nat) (s : List Char) :
    pyStrip isQuoteChar (wrapQuotes n s) = pyStrip isQuoteChar s := by
  induction n with
  | zero => rfl
  | succ m ih =>
    show pyStrip isQuoteChar ('\"' :: (wrapQuotes m s ++ ['\"'])) = _
    rw [pyStrip_wrap_char isQuoteChar '\"' rfl (wrapQuotes m s), ih]

theorem pyStripWs_wrapQuotes_succ (n : Nat) (s : List Char) :
    pyStrip pyWhitespace (wrapQuotes (n + 1) s) = wrapQuotes (n + 1) s := by
  apply pyStrip_eq_self
  · intro c hc
    simp only [wrapQuotes, List.head?_cons] at hc
    rw [← Option.some_inj.mp hc]
    rfl
  · intro c hc
    have he : ('\"' :: (wrapQuotes n s ++ ['\"'])) = ('\"' :: wrapQuotes n s) ++ ['\"'] := by
      simp
    rw [show wrapQuotes (n + 1) s = '\"' :: (wrapQuotes n s ++ ['\"']) from rfl, he,
      List.getLast?_concat] at hc
    rw [← Option.some_inj.mp hc]
    rfl


theorem osPathJoin_outDir (b : List Char) :
    osPathJoin OUTPUT_DIR b = if b.head? = some '/' then b else OUTPUT_DIR ++ '/' :: b := by
  by_cases h : b.head? = some '/'
  · rw [if_pos h]
    unfold osPathJoin
    rw [if_pos h]
  · rw [if_neg h]
    unfold osPathJoin
    rw [if_neg h, if_neg (by decide : ¬ OUTPUT_DIR = []),
      if_neg (by decide : ¬ OUTPUT_DIR.getLast? = some '/')]

theorem append_head?_ne_slash (f suffix : List Char) (hs : suffix.head? ≠ some '/')
    (hf : f.head? ≠ some '/') : (f ++ suffix).head? ≠ some '/' := by
  cases f with
  | nil => simpa using hs
  | cons c t => simpa using hf

theorem tempPath_ne_finalPath (f : List Char) : tempPath f ≠ finalPath f := by
  have hT : ¬ ("_temp.wav".toList = ".wav".toList) := by decide
  intro h
  unfold tempPath finalPath at h
  rw [osPathJoin_outDir, osPathJoin_outDir] at h
  by_cases hf : f.head? = some '/'
  · have h1 : (f ++ "_temp.wav".toList).head? = some '/' := by
      cases f with
      | nil => simp at hf
      | cons c t => simpa using hf
    have h2 : (f ++ ".wav".toList).head? = some '/' := by
      cases f with
      | nil => simp at hf
      | cons c t => simpa using hf
    rw [if_pos h1, if_pos h2] at h
    exact hT (List.append_cancel_left h)
  · have h1 : ¬ (f ++ "_temp.wav".toList).head? = some '/' :=
      append_head?_ne_slash f _ (by decide) hf
    have h2 : ¬ (f ++ ".wav".toList).head? = some '/' :=
      append_head?_ne_slash f _ (by decide) hf
    rw [if_neg h1, if_neg h2] at h
    have h3 := List.append_cancel_left h
    have h4 : f ++ "_temp.wav".toList = f ++ ".wav".toList := List.cons_injective h3
    exact hT (List.append_cancel_left h4)

/-- C1: for a processed entry, a final artifact exists only if both the
synthesis (status 200) and the transcoding succeeded; the intermediate
artifact is removed only when the transcoder call completed, so a transcoding
failure never leaves a final artifact, though a crash of the transcoder call
leaves a stray intermediate artifact. -/
theorem final_artifact_invariant (tb : TranscodeBehavior) (resp : HttpResponse)
    (f : List Char) (fs : List (List Char)) (hfs : finalPath f ∉ fs) :
    (finalPath f ∈ runSynthesize tb resp f fs →
      resp.status = 200 ∧ tb = TranscodeBehavior.success)
    ∧ (tb ≠ TranscodeBehavior.success → finalPath f ∉ runSynthesize tb resp f fs)
    ∧ (resp.status = 200 → tb = TranscodeBehavior.crash →
      tempPath f ∈ runSynthesize tb resp f fs)
    ∧ (resp.status = 200 → tempPath f ∉ runSynthesize tb resp f fs →
      tb ≠ TranscodeBehavior.crash) := by
  unfold runSynthesize
  by_cases hs : resp.status = 200
  · rw [if_pos hs]
    cases tb with
    | success =>
      exact ⟨fun _ => ⟨hs, rfl⟩, fun hne => (hne rfl).elim, fun _ hc => absurd hc (by decide),
        fun _ _ => by decide⟩
    | failSilent =>
      have hnm : finalPath f ∉ removePath (tempPath f) (tempPath f :: fs) := by
        intro hm
        simp only [removePath, List.mem_filter, List.mem_cons, bne_iff_ne, ne_eq] at hm
        exact hfs (Or.resolve_left hm.1 hm.2)
      exact ⟨fun hm => (hnm hm).elim, fun _ => hnm, fun _ hc => absurd hc (by decide),
        fun _ _ => by decide⟩
    | crash =>
      have hnm : finalPath f ∉ tempPath f :: fs := by
        intro hm
        rcases List.mem_cons.mp hm with he | hm2
        · exact tempPath_ne_finalPath f he.symm
        · exact hfs hm2
      exact ⟨fun hm => (hnm hm).elim, fun _ => hnm,
        fun _ _ => List.mem_cons_self _ _,
        fun _ hnm2 => ((hnm2 (List.mem_cons_self _ _)).elim)⟩
  · rw [if_neg hs]
    exact ⟨fun hm => (hfs hm).elim, fun _ => hfs,
      fun h200 => (hs h200).elim, fun h200 => (hs h200).elim⟩

/-- C1 witness: concrete instance with a failed synthesis and a silently
failing transcoder on an empty filesystem. -/
theorem final_artifact_invariant_witness :
    finalPath "id".toList ∉ ([] : List (List Char))
    ∧ (TranscodeBehavior.failSilent ≠ TranscodeBehavior.success →
      finalPath "id".toList ∉
        runSynthesize TranscodeBehavior.failSilent ⟨401, [], "unauthorized".toList⟩
          "id".toList []) :=
  ⟨by decide,
    (final_artifact_invariant TranscodeBehavior.failSilent ⟨401, [], "unauthorized".toList⟩
      "id".toList [] (by decide)).2.1⟩

/-- C2: on any non-200 synthesis status the entry's trace is just the request
and one error line; that line contains the identifier, the decimal status code
and the response body text; no artifact is written; and the main loop still
processes the remaining lines. -/
theorem synthesis_failure_behavior (resp : HttpResponse) (pt f : List Char)
    (h : resp.status ≠ 200) :
    synthesize_prompt resp pt f =
      [Event.httpPost (synthesisRequest pt),
       Event.printLine (errorMsg f resp.status resp.text)]
    ∧ containsSeq f (errorMsg f resp.status resp.text)
    ∧ containsSeq (Nat.toDigits 10 resp.status) (errorMsg f resp.status resp.text)
    ∧ containsSeq resp.text (errorMsg f resp.status resp.text)
    ∧ (∀ tb fs, runSynthesize tb resp f fs = fs)
    ∧ (∀ respond l ls e, parseLine l = some e → respond e = resp →
        mainEvents respond (l :: ls) =
          synthesize_prompt resp e.text e.identifier ++ mainEvents respond ls) := by
  refine ⟨by simp [synthesize_prompt, h], ?_, ?_, ?_, ?_, ?_⟩
  · exact ⟨"[!] Error for ".toList,
      ": ".toList ++ Nat.toDigits 10 resp.status ++ " - ".toList ++ resp.text,
      by simp [errorMsg, List.append_assoc]⟩
  · exact ⟨"[!] Error for ".toList ++ f ++ ": ".toList, " - ".toList ++ resp.text,
      by simp [errorMsg, List.append_assoc]⟩
  · exact ⟨"[!] Error for ".toList ++ f ++ ": ".toList ++ Nat.toDigits 10 resp.status ++
      " - ".toList, [], by simp [errorMsg, List.append_assoc]⟩
  · intro tb fs
    simp [runSynthesize, h]
  · intro respond l ls e hp hr
    simp [mainEvents, readEntries, List.filterMap_cons, hp, eventsOfEntries, hr]

/-- C2 witness: a 401 response with body text `unauthorized`. -/
theorem synthesis_failure_behavior_witness :
    (HttpResponse.mk 401 [] "unauthorized".toList).status ≠ 200
    ∧ synthesize_prompt ⟨401, [], "unauthorized".toList⟩ "hello".toList "id".toList =
      [Event.httpPost (synthesisRequest "hello".toList),
       Event.printLine (errorMsg "id".toList
        (HttpResponse.mk 401 [] "unauthorized".toList).status
        (HttpResponse.mk 401 [] "unauthorized".toList).text)] :=
  ⟨by decide,
    (synthesis_failure_behavior ⟨401, [], "unauthorized".toList⟩ "hello".toList "id".toList
      (by decide)).1⟩

/-- C3: on status 200 the entry's trace is: post the request (whose JSON body
is the single pair text/entry-text), write the payload bytes to the temp path,
run the transcoder towards the final path named identifier.wav, remove the
temp file, and print the success notice naming the final path; under a
successful transcode the final artifact is present and no residual
intermediate artifact remains. -/
theorem synthesis_success_behavior (resp : HttpResponse) (pt f : List Char)
    (h : resp.status = 200) :
    synthesize_prompt resp pt f =
      [Event.httpPost (synthesisRequest pt),
       Event.writeFile (tempPath f) resp.content,
       Event.runProcess (convert_to_ulaw (tempPath f) (finalPath f)),
       Event.removeFile (tempPath f),
       Event.printLine (successMsg (finalPath f))]
    ∧ (synthesisRequest pt).jsonBody = [("text".toList, pt)]
    ∧ finalPath f = osPathJoin OUTPUT_DIR (f ++ ".wav".toList)
    ∧ (∀ fs, tempPath f ∉ runSynthesize TranscodeBehavior.success resp f fs)
    ∧ (∀ fs, finalPath f ∈ runSynthesize TranscodeBehavior.success resp f fs) := by
  refine ⟨by simp [synthesize_prompt, h], rfl, rfl, ?_, ?_⟩
  · intro fs
    simp [runSynthesize, h, removePath, List.mem_filter]
  · intro fs
    simp only [runSynthesize, if_pos h, removePath, List.mem_filter, List.mem_cons,
      bne_iff_ne, ne_eq]
    simp [(tempPath_ne_finalPath f).symm]

/-- C3 witness: a 200 response with a concrete three-byte payload. -/
theorem synthesis_success_behavior_witness :
    (HttpResponse.mk 200 [1, 2, 3] []).status = 200
    ∧ synthesize_prompt ⟨200, [1, 2, 3], []⟩ "hi".toList "id".toList =
      [Event.httpPost (synthesisRequest "hi".toList),
       Event.writeFile (tempPath "id".toList) (HttpResponse.mk 200 [1, 2, 3] []).content,
       Event.runProcess (convert_to_ulaw (tempPath "id".toList) (finalPath "id".toList)),
       Event.removeFile (tempPath "id".toList),
       Event.printLine (successMsg (finalPath "id".toList))] :=
  ⟨rfl,
    (synthesis_success_behavior ⟨200, [1, 2, 3], []⟩ "hi".toList "id".toList rfl).1⟩

/-- C4: a line whose cleaned form contains a separator is split at the first
comma only; the part before it, whitespace-trimmed, is the identifier and the
whitespace-trimmed remainder (which may contain further commas) is the text;
in particular the line a, b, c yields identifier a and text b, c. -/
theorem reader_splits_at_first_separator :
    (∀ raw a b, cleanLine raw = a ++ ',' :: b → ',' ∉ a →
      parseLine raw = some ⟨pyStrip pyWhitespace a, pyStrip pyWhitespace b⟩)
    ∧ parseLine "a, b, c".toList = some ⟨"a".toList, "b, c".toList⟩ := by
  constructor
  · intro raw a b hcl hna
    unfold parseLine
    rw [hcl, splitAtComma_append a b hna]
  · decide

/-- C4 witness: the general split statement applied to the concrete line
k, v w. -/
theorem reader_splits_at_first_separator_witness :
    cleanLine "k, v w".toList = "k".toList ++ ',' :: " v w".toList
    ∧ ',' ∉ "k".toList
    ∧ parseLine "k, v w".toList =
      some ⟨pyStrip pyWhitespace "k".toList, pyStrip pyWhitespace " v w".toList⟩ :=
  ⟨by decide, by decide,
    reader_splits_at_first_separator.1 "k, v w".toList "k".toList " v w".toList
      (by decide) (by decide)⟩

/-- C5 counterexample: the reader removes every layer of enclosing quote
characters, not exactly one; a doubly quoted line is fully unwrapped rather
than keeping the inner quote layer on the split parts. -/
theorem quote_layers_counterexample :
    parseLine (wrapQuotes 2 "id,text".toList) = some ⟨"id".toList, "text".toList⟩
    ∧ parseLine (wrapQuotes 2 "id,text".toList) ≠
      some ⟨"\"id".toList, "text\"".toList⟩ := by
  decide

/-- C5 amended: each line is trimmed of surrounding whitespace and then all
(not just one layer of) enclosing quote characters are removed, so wrapping an
already-trimmed line in any number of quote layers yields the same entry as
the unwrapped form. -/
theorem reader_strips_all_quote_layers (raw : List Char)
    (h : pyStrip pyWhitespace raw = raw) (n : Nat) :
    parseLine (wrapQuotes n raw) = parseLine raw := by
  have hc : cleanLine (wrapQuotes n raw) = cleanLine raw := by
    cases n with
    | zero => rfl
    | succ m =>
      unfold cleanLine
      rw [pyStripWs_wrapQuotes_succ, pyStrip_wrapQuotes, h]
  unfold parseLine
  rw [hc]

/-- C5 amended witness: three quote layers around id,text parse the same as
the bare line. -/
theorem reader_strips_all_quote_layers_witness :
    pyStrip pyWhitespace "id,text".toList = "id,text".toList
    ∧ parseLine (wrapQuotes 3 "id,text".toList) = parseLine "id,text".toList :=
  ⟨by decide, reader_strips_all_quote_layers "id,text".toList (by decide) 3⟩

/-- C6: a line whose cleaned form contains no separator yields no entry and is
silently dropped from the entry sequence, and an empty input yields no
entries. -/
theorem reader_skips_separatorless_lines :
    (∀ raw, ',' ∉ cleanLine raw → parseLine raw = none)
    ∧ (∀ raw ls, ',' ∉ cleanLine raw → readEntries (raw :: ls) = readEntries ls)
    ∧ readEntries [] = [] := by
  have hp : ∀ raw, ',' ∉ cleanLine raw → parseLine raw = none := by
    intro raw h
    unfold parseLine
    rw [splitAtComma_eq_none _ h]
  refine ⟨hp, ?_, rfl⟩
  intro raw ls h
  simp [readEntries, List.filterMap_cons, hp raw h]

/-- C6 witness: the separator-free line abc is skipped in front of a
well-formed line. -/
theorem reader_skips_separatorless_lines_witness :
    ',' ∉ cleanLine "abc".toList
    ∧ parseLine "abc".toList = none
    ∧ readEntries ["abc".toList, "x,y".toList] = readEntries ["x,y".toList] :=
  ⟨by decide, reader_skips_separatorless_lines.1 "abc".toList (by decide),
    reader_skips_separatorless_lines.2.1 "abc".toList ["x,y".toList] (by decide)⟩

/-- C7 counterexample: the reader does pass entries with an empty identifier
to synthesis; a line starting with the separator yields one. -/
theorem empty_identifier_counterexample :
    ∃ e, e ∈ readEntries [",hello".toList] ∧ e.identifier = [] :=
  ⟨⟨[], "hello".toList⟩, by decide, rfl⟩

/-- C7 amended: every entry the reader produces has whitespace-trimmed
identifier and text, but either part may be empty. -/
theorem reader_entries_trimmed (lines : List (List Char)) (e : PromptEntry)
    (he : e ∈ readEntries lines) :
    pyStrip pyWhitespace e.identifier = e.identifier
    ∧ pyStrip pyWhitespace e.text = e.text := by
  unfold readEntries at he
  rcases List.mem_filterMap.mp he with ⟨raw, _, hp⟩
  unfold parseLine at hp
  cases hsp : splitAtComma (cleanLine raw) with
  | none => rw [hsp] at hp; cases hp
  | some p =>
    rw [hsp] at hp
    injection hp with hp
    rw [← hp]
    exact ⟨pyStrip_idem _ _, pyStrip_idem _ _⟩

/-- C7 amended witness: the single entry of the line a, b is trimmed. -/
theorem reader_entries_trimmed_witness :
    (⟨"a".toList, "b".toList⟩ : PromptEntry) ∈ readEntries ["a, b".toList]
    ∧ pyStrip pyWhitespace ("a".toList) = "a".toList
    ∧ pyStrip pyWhitespace ("b".toList) = "b".toList :=
  ⟨by decide,
    (reader_entries_trimmed ["a, b".toList] ⟨"a".toList, "b".toList⟩ (by decide)).1,
    (reader_entries_trimmed ["a, b".toList] ⟨"a".toList, "b".toList⟩ (by decide)).2⟩

/-- C8: the transcoder always invokes the external tool with the same fixed
argument vector - overwrite flag, 8000 Hz sample rate, one audio channel,
WAV container, mu-law codec, destination last - with both child streams
suppressed and the exit status unchecked by the caller. -/
theorem transcoder_fixed_invocation (input_path output_path : List Char) :
    (convert_to_ulaw input_path output_path).args =
      ["ffmpeg".toList, "-y".toList, "-i".toList, input_path,
       "-ar".toList, "8000".toList, "-ac".toList, "1".toList,
       "-f".toList, "wav".toList, "-acodec".toList, "pcm_mulaw".toList,
       output_path]
    ∧ (convert_to_ulaw input_path output_path).stdoutSuppressed = true
    ∧ (convert_to_ulaw input_path output_path).stderrSuppressed = true
    ∧ (convert_to_ulaw input_path output_path).checkExit = false
    ∧ (convert_to_ulaw input_path output_path).args =
      ((convert_to_ulaw [] []).args.set 3 input_path).set 12 output_path :=
  ⟨rfl, rfl, rfl, rfl, rfl⟩

/-- C9 counterexample: the artifact paths are not always under the configured
output directory: the reader can produce the identifier /x, for which
os.path.join discards the directory and the final artifact path is the
absolute path /x.wav. -/
theorem artifact_path_escape_counterexample :
    readEntries ["/x,hi".toList] = [⟨"/x".toList, "hi".toList⟩]
    ∧ finalPath "/x".toList = "/x.wav".toList
    ∧ tempPath "/x".toList = "/x_temp.wav".toList
    ∧ ¬ underOutputDir (finalPath "/x".toList) := by
  refine ⟨by decide, by decide, by decide, ?_⟩
  rintro ⟨rest, hr⟩
  have h4 := congrArg List.head? hr
  rw [show List.head? (finalPath "/x".toList) = some '/' from rfl,
    show List.head? (OUTPUT_DIR ++ '/' :: rest) = some 'o' from rfl] at h4
  exact absurd h4 (by decide)

/-- C9 amended: the intermediate and final artifact paths are the result of
joining the output directory with identifier_temp.wav and identifier.wav; for
every identifier not starting with a path separator both lie under the
configured output directory at exactly those relative paths, while an
identifier starting with the separator escapes the directory. -/
theorem artifact_paths_under_output_dir (f : List Char) (h : f.head? ≠ some '/') :
    tempPath f = OUTPUT_DIR ++ '/' :: (f ++ "_temp.wav".toList)
    ∧ finalPath f = OUTPUT_DIR ++ '/' :: (f ++ ".wav".toList)
    ∧ underOutputDir (tempPath f) ∧ underOutputDir (finalPath f) := by
  have h1 : ¬ (f ++ "_temp.wav".toList).head? = some '/' :=
    append_head?_ne_slash f _ (by decide) h
  have h2 : ¬ (f ++ ".wav".toList).head? = some '/' :=
    append_head?_ne_slash f _ (by decide) h
  have e1 : tempPath f = OUTPUT_DIR ++ '/' :: (f ++ "_temp.wav".toList) := by
    unfold tempPath
    rw [osPathJoin_outDir, if_neg h1]
  have e2 : finalPath f = OUTPUT_DIR ++ '/' :: (f ++ ".wav".toList) := by
    unfold finalPath
    rw [osPathJoin_outDir, if_neg h2]
  exact ⟨e1, e2, ⟨_, e1⟩, ⟨_, e2⟩⟩

/-- C9 amended witness: the identifier id yields both artifact paths directly
under the output directory. -/
theorem artifact_paths_under_output_dir_witness :
    ("id".toList).head? ≠ some '/'
    ∧ (tempPath "id".toList = OUTPUT_DIR ++ '/' :: ("id".toList ++ "_temp.wav".toList)
      ∧ finalPath "id".toList = OUTPUT_DIR ++ '/' :: ("id".toList ++ ".wav".toList)
      ∧ underOutputDir (tempPath "id".toList) ∧ underOutputDir (finalPath "id".toList)) :=
  ⟨by decide, artifact_paths_under_output_dir "id".toList (by decide)⟩

/-- C10: per-field quoting is not interpreted: quote characters are stripped
only from the outermost ends of the whole line, so a line with each field
individually quoted keeps the two inner quote characters on the split parts. -/
theorem per_field_quoting_uninterpreted :
    parseLine "\"a\",\"b\"".toList = some ⟨"a\"".toList, "\"b".toList⟩
    ∧ parseLine "\"a\",\"b\"".toList ≠ some ⟨"a".toList, "b".toList⟩ := by
  decide
